import Mathlib

/-!
Verification development for the synthetic YOLO dataset generator
(`scripts/generate_synthetic_data.py`).

Shallow-embedding conventions:

* PIL images are modelled by their pixel dimensions (`Img`).  The claims
  under study concern dimensions, coordinates, control flow and label-file
  contents, never individual pixel values, so photometric operations
  (brightness/contrast) are size-preserving no-ops at this level.
* Python floats are modelled as exact rationals (`ℚ`); `int(x)` is
  truncation toward zero (`pyint`), `//` is floor division (`Int.fdiv`).
* `random.randint(lo, hi)` is modelled by `randint lo hi u`, which maps an
  arbitrary draw `u : ℕ` onto the inclusive range `[lo, hi]` and fails
  (Python raises `ValueError`, here `none`) exactly when `hi < lo`.
* `PIL.Image.resize` raises `ValueError` when a requested dimension is
  below 1; `Img.resize` returns `Option Img` accordingly, and the raise
  propagates through `create_composite_logo` and the attempt step to the
  per-scene catch-all.
* `random.uniform(a, b)` and `random.random()` draws are carried as `ℚ`
  parameters of the random bundle, constrained to their ranges by
  hypotheses where a theorem needs them.
* The output size of `PIL.Image.rotate(angle, expand=True)` depends on the
  drawn angle through trigonometric functions; no claim under study
  constrains it, so it is carried as part of the attempt's random bundle
  (`postRotateSize`).  The perspective warp (`cv2.warpPerspective` onto a
  `(w, h)` canvas) preserves the image size.
* The filesystem is modelled by `Disk`, a list of image files and a list of
  label files; the possibly-failing label-file write is modelled by a
  boolean fault flag on the scene (`labelWriteOk`).
-/

namespace SynthGen

/-- A PIL raster, modelled by its pixel dimensions. -/
structure Img where
  w : ℕ
  h : ℕ
deriving DecidableEq, Repr

/-- Python `int()` applied to a float: truncation toward zero. -/
def pyint (q : ℚ) : ℤ :=
  if q < 0 then -⌊-q⌋ else ⌊q⌋

/-- `PIL.Image.resize` at the dimension level: Pillow raises
`ValueError: height and width must be > 0` when a requested dimension is
below 1 (modelled as `none`); otherwise the result has exactly the
requested size (the input raster only contributes pixel content). -/
def Img.resize (_img : Img) (sz : ℤ × ℤ) : Option Img :=
  if sz.1 < 1 ∨ sz.2 < 1 then none else some ⟨sz.1.toNat, sz.2.toNat⟩

/-- `paste_transparent(background, foreground, box)`:
`background.paste(foreground, box, foreground)` pastes in place and returns
the background, whose dimensions are unchanged. -/
def paste_transparent (background : Img) (_foreground : Img) (_box : ℤ × ℤ) : Img :=
  background

/-- The side of the square the letter is resized to in
`create_composite_logo`: `new_letter_size = int(min(shield_w, shield_h) * scale)`
with `scale = 0.7`. -/
def newLetterSize (shield_img : Img) : ℤ :=
  pyint ((min shield_img.w shield_img.h : ℚ) * (7 / 10))

/-- The resized letter of `create_composite_logo`:
`letter_img.resize((new_letter_size, new_letter_size), LANCZOS)`.
Note that the source passes the same value for both dimensions; the call
raises (`none`) when that value is below 1, i.e. for shields of minimum
dimension at most 1. -/
def letterResized (shield_img letter_img : Img) : Option Img :=
  letter_img.resize (newLetterSize shield_img, newLetterSize shield_img)

/-- The paste origin of the resized letter inside the shield, from the
resized letter's own size:
`paste_x = (shield_w - letter_w) // 2`, `paste_y = (shield_h - letter_h) // 2`. -/
def letterPasteOffset (shield_img letter2 : Img) : ℤ × ℤ :=
  (((shield_img.w : ℤ) - letter2.w).fdiv 2,
   ((shield_img.h : ℤ) - letter2.h).fdiv 2)

/-- `create_composite_logo(shield_img, letter_img)`: a transparent canvas of
the shield's size (`Image.new('RGBA', shield_img.size)`), with the shield
pasted at the origin and the resized letter pasted at the centering
offset.  The `ValueError` raised by the letter resize for tiny shields
propagates out of the function (`none`). -/
def create_composite_logo (shield_img letter_img : Img) : Option Img :=
  (letterResized shield_img letter_img).map fun letter2 =>
    let composite := paste_transparent ⟨shield_img.w, shield_img.h⟩ shield_img (0, 0)
    paste_transparent composite letter2 (letterPasteOffset shield_img letter2)

/-- `random.randint(lo, hi)`: a uniform draw from the inclusive integer
range `[lo, hi]`, parameterised by an arbitrary draw `u : ℕ`.  Python
raises `ValueError` when `hi < lo`; here that is `none`. -/
def randint (lo hi : ℤ) (u : ℕ) : Option ℤ :=
  if hi < lo then none else some (lo + (u : ℤ) % (hi - lo + 1))

/-- The jitter bound of `apply_augmentations`:
`jitter_w = int(w * max_jitter)` with `max_jitter = 0.15`. -/
def jitterAmt (n : ℕ) : ℤ :=
  pyint ((n : ℚ) * (3 / 20))

/-- The eight `random.randint` draws made while building `dst_pts` in
`apply_augmentations`, in the source's evaluation order. -/
structure JitterDraw where
  u1 : ℕ
  u2 : ℕ
  u3 : ℕ
  u4 : ℕ
  u5 : ℕ
  u6 : ℕ
  u7 : ℕ
  u8 : ℕ
deriving DecidableEq, Repr

/-- The `dst_pts` corner list of the perspective warp in
`apply_augmentations`:

```
dst_pts = [[randint(0, jw), randint(0, jh)],
           [w - randint(1, jw), randint(0, jh)],
           [w - randint(1, jw), h - randint(1, jh)],
           [randint(0, jw), h - randint(1, jh)]]
```

`none` models the `ValueError` raised by `randint(1, 0)` when the jitter
bound is zero. -/
def dstCorners (w h : ℕ) (d : JitterDraw) : Option (List (ℤ × ℤ)) :=
  (randint 0 (jitterAmt w) d.u1).bind fun a1 =>
  (randint 0 (jitterAmt h) d.u2).bind fun a2 =>
  (randint 1 (jitterAmt w) d.u3).bind fun b1 =>
  (randint 0 (jitterAmt h) d.u4).bind fun b2 =>
  (randint 1 (jitterAmt w) d.u5).bind fun c1 =>
  (randint 1 (jitterAmt h) d.u6).bind fun c2 =>
  (randint 0 (jitterAmt w) d.u7).bind fun e1 =>
  (randint 1 (jitterAmt h) d.u8).bind fun e2 =>
  some [(a1, a2), ((w : ℤ) - b1, b2), ((w : ℤ) - c1, (h : ℤ) - c2), (e1, (h : ℤ) - e2)]

/-- A normalized YOLO bounding box `(x_center, y_center, w, h)`. -/
structure YoloBox where
  xc : ℚ
  yc : ℚ
  bw : ℚ
  bh : ℚ
deriving DecidableEq, Repr

/-- `convert_to_yolo(box, img_size)`: converts a pixel box
`(xmin, ymin, xmax, ymax)` to a normalized YOLO box. -/
def convert_to_yolo (box : ℚ × ℚ × ℚ × ℚ) (img_size : ℚ × ℚ) : YoloBox :=
  let x_center := (box.1 + box.2.2.1) / 2
  let y_center := (box.2.1 + box.2.2.2) / 2
  let w := box.2.2.1 - box.1
  let h := box.2.2.2 - box.2.1
  ⟨x_center / img_size.1, y_center / img_size.2, w / img_size.1, h / img_size.2⟩

/-- Modelled from the spec: decoding a normalized YOLO box back to the pixel
box `(xmin, ymin, xmax, ymax)` it denotes on an image of the given size.
No decoder exists in the repository; this follows the spec's definition of
a normalized bounding box (fractions of image width/height). -/
def yolo_decode (b : YoloBox) (img_size : ℚ × ℚ) : ℚ × ℚ × ℚ × ℚ :=
  ((b.xc - b.bw / 2) * img_size.1, (b.yc - b.bh / 2) * img_size.2,
   (b.xc + b.bw / 2) * img_size.1, (b.yc + b.bh / 2) * img_size.2)

/-- The exclusion test of the main loop, on the basenames of the drawn
shield and letter files. -/
def isForbidden (shield_filename letter_filename : String) : Bool :=
  (shield_filename == "shield1.png" && letter_filename == "tletter2.png") ||
  (shield_filename == "shield3.png" && letter_filename == "tletter1.png")

/-- The random bundle of one logo attempt inside a scene: the drawn asset
basenames, the dimensions of the loaded rasters, the eight perspective
jitter draws, the post-rotation size (see the header note), the
`random.uniform(0.05, 0.35)` scale draw, and the two paste-origin
`randint` draws. -/
structure Attempt where
  shieldName : String
  letterName : String
  shieldImg : Img
  letterImg : Img
  jitter : JitterDraw
  postRotateSize : Img
  scale : ℚ
  pasteXU : ℕ
  pasteYU : ℕ
deriving DecidableEq, Repr

/-- Outcome of one logo attempt of the main loop. -/
inductive AttemptResult where
  | skippedForbidden : AttemptResult
  | skippedDegenerate : AttemptResult
  | errored : AttemptResult
  | placed : ℤ → ℤ → ℤ → ℤ → YoloBox → AttemptResult
deriving DecidableEq, Repr

/-- One iteration of the `for _ in range(num_logos_to_add)` body of `main`:
exclusion check, compositing, augmentation (only its failure mode and size
effect matter here), scale/resize, degeneracy guards, paste-origin draw,
and YOLO conversion.  `errored` models an uncaught exception (handled by
the per-scene catch-all). -/
def attemptStep (bg : Img) (a : Attempt) : AttemptResult :=
  if isForbidden a.shieldName a.letterName then .skippedForbidden
  else
    match create_composite_logo a.shieldImg a.letterImg with
    | none => .errored
    | some logo0 =>
    match dstCorners logo0.w logo0.h a.jitter with
    | none => .errored
    | some _ =>
      let logo1 := a.postRotateSize
      let target_w := pyint ((bg.w : ℚ) * a.scale)
      let target_h := pyint ((bg.h : ℚ) * a.scale)
      if logo1.w = 0 ∨ logo1.h = 0 then .skippedDegenerate
      else
        let ratio : ℚ := min ((target_w : ℚ) / logo1.w) ((target_h : ℚ) / logo1.h)
        let new_logo_w := pyint ((logo1.w : ℚ) * ratio)
        let new_logo_h := pyint ((logo1.h : ℚ) * ratio)
        if new_logo_w < 1 ∨ new_logo_h < 1 then .skippedDegenerate
        else
          let max_x := (bg.w : ℤ) - new_logo_w
          let max_y := (bg.h : ℤ) - new_logo_h
          match randint 0 max_x a.pasteXU, randint 0 max_y a.pasteYU with
          | some paste_x, some paste_y =>
            .placed paste_x paste_y new_logo_w new_logo_h
              (convert_to_yolo
                ((paste_x : ℚ), (paste_y : ℚ),
                 ((paste_x + new_logo_w : ℤ) : ℚ), ((paste_y + new_logo_h : ℤ) : ℚ))
                ((bg.w : ℚ), (bg.h : ℚ)))
          | _, _ => .errored

/-- The `yolo_bboxes` list accumulated over the attempts of one scene;
`none` models an exception escaping an attempt and abandoning the scene. -/
def scenePlacements (bg : Img) : List Attempt → Option (List YoloBox)
  | [] => some []
  | a :: rest =>
    match attemptStep bg a with
    | .errored => none
    | .placed _ _ _ _ y => (scenePlacements bg rest).map fun l => y :: l
    | _ => scenePlacements bg rest

/-- The (shield, letter) basename pairs for which `create_composite_logo`
is actually invoked over a list of attempts: every attempt that survives
the exclusion check reaches the compositing call. -/
def builtComposites (bg : Img) (as : List Attempt) : List (String × String) :=
  as.filterMap fun a =>
    match attemptStep bg a with
    | .skippedForbidden => none
    | _ => some (a.shieldName, a.letterName)

/-- The textual rendering of one rational in a label line.  Python renders
the float with its default `str` precision; the spec leaves the textual
precision open, so the model fixes the canonical rational rendering. -/
def ratRender (q : ℚ) : String :=
  toString q

/-- One `f.write` of the label loop:
the source f-string is `"0 {bbox[0]} {bbox[1]} {bbox[2]} {bbox[3]}\x5c\x5cn"`,
whose value ends in the two characters backslash and `n` (the doubled
backslash is an escaped backslash), not in a newline. -/
def labelLine (render : ℚ → String) (b : YoloBox) : String :=
  "0 " ++ render b.xc ++ " " ++ render b.yc ++ " " ++
    render b.bw ++ " " ++ render b.bh ++ "\\n"

/-- The full contents written to one label file: one `f.write` per
accumulated YOLO box, in order. -/
def labelContent (render : ℚ → String) (boxes : List YoloBox) : String :=
  String.join (boxes.map (labelLine render))

/-- Modelled from the spec: the label-file contents the spec describes —
one line per Annotation record, newline-terminated.  Used to compare the
source's writer against the spec's words. -/
def specLabelContent (render : ℚ → String) (boxes : List YoloBox) : String :=
  String.join (boxes.map fun b =>
    "0 " ++ render b.xc ++ " " ++ render b.yc ++ " " ++
      render b.bw ++ " " ++ render b.bh ++ "\n")

/-- The output directory state: image files and label files, each keyed by
split name and sequence number (label files carry their contents). -/
structure Disk where
  images : List (String × ℕ)
  labels : List (String × ℕ × String)
deriving DecidableEq, Repr

/-- The save section of `main` (steps 9): `background_pil.save(...)`
followed by the label-file write.  `labelWriteOk = false` models an I/O
failure raised while opening/writing the label file; the image save has
already happened and nothing removes it.  Returns the resulting disk and
whether the scene completed. -/
def saveScene (d : Disk) (split : String) (seq : ℕ) (content : String)
    (labelWriteOk : Bool) : Disk × Bool :=
  let d1 : Disk := ⟨(split, seq) :: d.images, d.labels⟩
  if labelWriteOk then (⟨d1.images, (split, seq, content) :: d1.labels⟩, true)
  else (d1, false)

/-- The random bundle of one scene iteration: background raster, the
attempt bundles (their number is the `random.randint(1, 3)` draw), the
`random.random()` split draw, and the label-write fault flag. -/
structure Scene where
  bg : Img
  attempts : List Attempt
  splitU : ℚ
  labelWriteOk : Bool
deriving DecidableEq, Repr

/-- The mutable state of the generation run. -/
structure RunState where
  generated : ℕ
  disk : Disk
deriving DecidableEq, Repr

/-- One iteration of the `while generated_count < args.num_images` loop
body: process the scene's attempts; on an escaped exception
(`scenePlacements = none`) the catch-all logs and continues; on zero
accumulated boxes the scene is skipped (`if not yolo_bboxes: continue`);
otherwise the split is drawn, the image is saved and the label file is
written, and only a fully successful write increments `generated_count`. -/
def sceneStep (st : RunState) (sc : Scene) : RunState :=
  match scenePlacements sc.bg sc.attempts with
  | none => st
  | some boxes =>
    if boxes.isEmpty then st
    else
      let split := if sc.splitU < 9 / 10 then "train" else "val"
      let r := saveScene st.disk split st.generated (labelContent ratRender boxes)
        sc.labelWriteOk
      if r.2 then ⟨st.generated + 1, r.1⟩ else ⟨st.generated, r.1⟩

/-- The generation loop over a (prefix of the) stream of scene random
bundles, stopping once the target count is reached. -/
def runLoop (target : ℕ) : RunState → List Scene → RunState
  | st, [] => st
  | st, sc :: rest =>
    if st.generated < target then runLoop target (sceneStep st sc) rest else st

/-- A fixed jitter-draw bundle used by concrete witnesses. -/
def d0 : JitterDraw :=
  ⟨0, 0, 0, 0, 0, 0, 0, 0⟩

/-- A 100 x 100 background used by concrete witnesses. -/
def bg0 : Img :=
  ⟨100, 100⟩

/-- An ordinary (non-forbidden) attempt bundle used by concrete witnesses:
20 x 20 shield, scale draw 1/5, paste draws 5. -/
def a0 : Attempt :=
  ⟨"s.png", "l.png", ⟨20, 20⟩, ⟨30, 10⟩, d0, ⟨20, 20⟩, 1 / 5, 5, 5⟩

/-- An attempt bundle that draws a forbidden (shield, letter) pairing. -/
def aF : Attempt :=
  ⟨"shield1.png", "tletter2.png", ⟨20, 20⟩, ⟨30, 10⟩, d0, ⟨20, 20⟩, 1 / 5, 5, 5⟩

/-- An attempt bundle whose 5 x 5 composite makes the corner jitter raise. -/
def aBad : Attempt :=
  ⟨"s.png", "l.png", ⟨5, 5⟩, ⟨30, 10⟩, d0, ⟨5, 5⟩, 1 / 5, 5, 5⟩

/-- A scene whose single attempt is forbidden: zero accepted placements. -/
def sc0 : Scene :=
  ⟨bg0, [aF], 1 / 2, true⟩

/-- A scene abandoned by the catch-all: its attempt raises in the warp. -/
def scErr : Scene :=
  ⟨bg0, [aBad], 1 / 2, true⟩

/-- A scene with one accepted placement whose label-file write fails. -/
def sc4 : Scene :=
  ⟨bg0, [a0], 1 / 2, false⟩

/-- The initial run state: empty disk, zero generated images. -/
def st0 : RunState :=
  ⟨0, ⟨[], []⟩⟩

/-- Modelled from the spec: the set of destination-corner quadruples the
spec describes for the perspective warp — each source corner jittered
inward or outward by at most 15% of the width (x) or height (y),
independently per corner per axis. -/
def specJitterReachable (w h : ℕ) (pts : List (ℤ × ℤ)) : Prop :=
  ∃ dx1 dy1 dx2 dy2 dx3 dy3 dx4 dy4 : ℤ,
    |dx1| ≤ jitterAmt w ∧ |dy1| ≤ jitterAmt h ∧
    |dx2| ≤ jitterAmt w ∧ |dy2| ≤ jitterAmt h ∧
    |dx3| ≤ jitterAmt w ∧ |dy3| ≤ jitterAmt h ∧
    |dx4| ≤ jitterAmt w ∧ |dy4| ≤ jitterAmt h ∧
    pts = [(dx1, dy1), ((w : ℤ) + dx2, dy2),
           ((w : ℤ) + dx3, (h : ℤ) + dy3), (dx4, (h : ℤ) + dy4)]

/-- The inward-only jitter shape that the source actually implements:
top-left offsets and the bottom-left x / top-right y offsets range over
`[0, jitter]`, the offsets subtracted from the far edges over
`[1, jitter]`; no corner ever moves outward. -/
def inwardJitterForm (w h : ℕ) (pts : List (ℤ × ℤ)) : Prop :=
  ∃ a1 a2 b1 b2 c1 c2 e1 e2 : ℤ,
    (0 ≤ a1 ∧ a1 ≤ jitterAmt w) ∧ (0 ≤ a2 ∧ a2 ≤ jitterAmt h) ∧
    (1 ≤ b1 ∧ b1 ≤ jitterAmt w) ∧ (0 ≤ b2 ∧ b2 ≤ jitterAmt h) ∧
    (1 ≤ c1 ∧ c1 ≤ jitterAmt w) ∧ (1 ≤ c2 ∧ c2 ≤ jitterAmt h) ∧
    (0 ≤ e1 ∧ e1 ≤ jitterAmt w) ∧ (1 ≤ e2 ∧ e2 ≤ jitterAmt h) ∧
    pts = [(a1, a2), ((w : ℤ) - b1, b2), ((w : ℤ) - c1, (h : ℤ) - c2), (e1, (h : ℤ) - e2)]

/-! ## Helper lemmas -/

theorem randint_bounds {lo hi : ℤ} {u : ℕ} {x : ℤ}
    (h : randint lo hi u = some x) : lo ≤ x ∧ x ≤ hi := by
  rw [randint] at h
  split at h
  · exact absurd h (by simp)
  · rename_i hge
    injection h with hx
    have h0 : 0 ≤ (u : ℤ) % (hi - lo + 1) := Int.emod_nonneg _ (by omega)
    have h1 : (u : ℤ) % (hi - lo + 1) < hi - lo + 1 := Int.emod_lt_of_pos _ (by omega)
    omega

theorem randint_zero_some {hi : ℤ} (hhi : 0 ≤ hi) (u : ℕ) :
    randint 0 hi u = some ((u : ℤ) % (hi + 1)) := by
  rw [randint, if_neg (by omega)]
  norm_num

theorem randint_one_some {hi : ℤ} (hhi : 1 ≤ hi) (u : ℕ) :
    randint 1 hi u = some (1 + (u : ℤ) % hi) := by
  rw [randint, if_neg (by omega)]
  have : hi - 1 + 1 = hi := by omega
  rw [this]

theorem randint_one_none {hi : ℤ} (hhi : hi < 1) (u : ℕ) :
    randint 1 hi u = none := by
  rw [randint, if_pos hhi]

theorem pyint_of_nonneg {q : ℚ} (h : 0 ≤ q) : pyint q = ⌊q⌋ := by
  rw [pyint, if_neg (not_lt.mpr h)]

theorem newLetterSize_nonneg (shield_img : Img) : 0 ≤ newLetterSize shield_img := by
  have hq : (0 : ℚ) ≤ (min shield_img.w shield_img.h : ℚ) * (7 / 10) := by positivity
  rw [newLetterSize, pyint_of_nonneg hq]
  exact Int.floor_nonneg.mpr hq

theorem newLetterSize_le_min (shield_img : Img) :
    newLetterSize shield_img ≤ (min shield_img.w shield_img.h : ℤ) := by
  have hq : (0 : ℚ) ≤ (min shield_img.w shield_img.h : ℚ) * (7 / 10) := by positivity
  rw [newLetterSize, pyint_of_nonneg hq]
  calc ⌊(min shield_img.w shield_img.h : ℚ) * (7 / 10)⌋
      ≤ ⌊(min shield_img.w shield_img.h : ℚ)⌋ := by
        apply Int.floor_le_floor
        have h0 : (0 : ℚ) ≤ (min shield_img.w shield_img.h : ℚ) := by positivity
        nlinarith
    _ = (min shield_img.w shield_img.h : ℤ) := by
        rw [← Nat.cast_min, ← Nat.cast_min, Int.floor_natCast]

theorem newLetterSize_pos {shield_img : Img}
    (h : 2 ≤ min shield_img.w shield_img.h) : 1 ≤ newLetterSize shield_img := by
  have hq : (0 : ℚ) ≤ (min shield_img.w shield_img.h : ℚ) * (7 / 10) := by positivity
  rw [newLetterSize, pyint_of_nonneg hq, Int.le_floor]
  have h2 : (2 : ℚ) ≤ (min shield_img.w shield_img.h : ℚ) := by
    rw [← Nat.cast_min]
    exact_mod_cast h
  push_cast
  nlinarith

theorem newLetterSize_lt_one {shield_img : Img}
    (h : min shield_img.w shield_img.h ≤ 1) : newLetterSize shield_img < 1 := by
  have hq : (0 : ℚ) ≤ (min shield_img.w shield_img.h : ℚ) * (7 / 10) := by positivity
  rw [newLetterSize, pyint_of_nonneg hq, Int.floor_lt]
  have h1 : (min shield_img.w shield_img.h : ℚ) ≤ 1 := by
    rw [← Nat.cast_min]
    exact_mod_cast h
  nlinarith

theorem letterResized_eq_some (shield_img letter_img : Img)
    (h : 1 ≤ newLetterSize shield_img) :
    letterResized shield_img letter_img =
      some ⟨(newLetterSize shield_img).toNat, (newLetterSize shield_img).toNat⟩ := by
  simp only [letterResized, Img.resize]
  rw [if_neg (by omega)]

theorem letterResized_eq_none (shield_img letter_img : Img)
    (h : newLetterSize shield_img < 1) :
    letterResized shield_img letter_img = none := by
  simp only [letterResized, Img.resize]
  rw [if_pos (Or.inl h)]

theorem jitterAmt_nonneg (n : ℕ) : 0 ≤ jitterAmt n := by
  rw [jitterAmt, pyint, if_neg (not_lt.mpr (by positivity))]
  exact Int.floor_nonneg.mpr (by positivity)

theorem jitterAmt_eq_zero {n : ℕ} (hn : n ≤ 6) : jitterAmt n = 0 := by
  rw [jitterAmt, pyint, if_neg (not_lt.mpr (by positivity))]
  rw [Int.floor_eq_zero_iff]
  constructor
  · positivity
  · have hn6 : (n : ℚ) ≤ 6 := by exact_mod_cast hn
    linarith

theorem jitterAmt_pos {n : ℕ} (hn : 7 ≤ n) : 1 ≤ jitterAmt n := by
  rw [jitterAmt, pyint, if_neg (not_lt.mpr (by positivity))]
  rw [Int.le_floor]
  have hn7 : (7 : ℚ) ≤ (n : ℚ) := by exact_mod_cast hn
  push_cast
  linarith

theorem dstCorners_eval (w h : ℕ) (d : JitterDraw)
    (hjw : 1 ≤ jitterAmt w) (hjh : 1 ≤ jitterAmt h) :
    dstCorners w h d = some
      [((d.u1 : ℤ) % (jitterAmt w + 1), (d.u2 : ℤ) % (jitterAmt h + 1)),
       ((w : ℤ) - (1 + (d.u3 : ℤ) % jitterAmt w), (d.u4 : ℤ) % (jitterAmt h + 1)),
       ((w : ℤ) - (1 + (d.u5 : ℤ) % jitterAmt w), (h : ℤ) - (1 + (d.u6 : ℤ) % jitterAmt h)),
       ((d.u7 : ℤ) % (jitterAmt w + 1), (h : ℤ) - (1 + (d.u8 : ℤ) % jitterAmt h))] := by
  rw [dstCorners,
    randint_zero_some (by omega) d.u1, Option.some_bind,
    randint_zero_some (by omega) d.u2, Option.some_bind,
    randint_one_some hjw d.u3, Option.some_bind,
    randint_zero_some (by omega) d.u4, Option.some_bind,
    randint_one_some hjw d.u5, Option.some_bind,
    randint_one_some hjh d.u6, Option.some_bind,
    randint_zero_some (by omega) d.u7, Option.some_bind,
    randint_one_some hjh d.u8, Option.some_bind]

theorem yolo_roundtrip (b : YoloBox) (W H : ℚ) (hW : W ≠ 0) (hH : H ≠ 0) :
    convert_to_yolo (yolo_decode b (W, H)) (W, H) = b := by
  obtain ⟨xc, yc, bw, bh⟩ := b
  rw [convert_to_yolo, yolo_decode, YoloBox.mk.injEq]
  refine ⟨?_, ?_, ?_, ?_⟩ <;> field_simp <;> ring

theorem attemptStep_placed_facts (bg : Img) (a : Attempt)
    {px py nw nh : ℤ} {yb : YoloBox}
    (hp : attemptStep bg a = .placed px py nw nh yb) :
    0 ≤ px ∧ px + nw ≤ (bg.w : ℤ) ∧ 0 ≤ py ∧ py + nh ≤ (bg.h : ℤ) ∧
    1 ≤ nw ∧ 1 ≤ nh ∧
    yb = convert_to_yolo ((px : ℚ), (py : ℚ), ((px : ℚ) + (nw : ℚ)), ((py : ℚ) + (nh : ℚ)))
      ((bg.w : ℚ), (bg.h : ℚ)) := by
  simp only [attemptStep] at hp
  split at hp
  · simp at hp
  · split at hp
    · simp at hp
    · split at hp
      · simp at hp
      · split at hp
        · simp at hp
        · split at hp
          · simp at hp
          · rename_i hguard
            split at hp
            · rename_i paste_x paste_y heqx heqy
              obtain ⟨hx0, hx1⟩ := randint_bounds heqx
              obtain ⟨hy0, hy1⟩ := randint_bounds heqy
              injection hp with h1 h2 h3 h4 h5
              subst h1
              subst h2
              subst h3
              subst h4
              refine ⟨hx0, by omega, hy0, by omega, by omega, by omega, ?_⟩
              rw [← h5]
              congr 1
              push_cast
              ring
            · simp at hp

/-! ## Claim theorems -/

/-- C1: for every placement accepted by the generation loop on a background
of positive width and height, the paste origin satisfies
`0 <= paste_x`, `paste_x + rendered_width <= background_width`, and
analogously for y.  (The paste origin is drawn by
`random.randint(0, bg - rendered)`, which only succeeds when the range is
nonempty and then yields a value inside it; a placement is only recorded
when both draws succeed.) -/
theorem C1_placement_in_bounds (bg : Img) (a : Attempt)
    (_hbw : 1 ≤ bg.w) (_hbh : 1 ≤ bg.h)
    {px py nw nh : ℤ} {yb : YoloBox}
    (hp : attemptStep bg a = .placed px py nw nh yb) :
    0 ≤ px ∧ px + nw ≤ (bg.w : ℤ) ∧ 0 ≤ py ∧ py + nh ≤ (bg.h : ℤ) := by
  obtain ⟨h1, h2, h3, h4, -, -, -⟩ := attemptStep_placed_facts bg a hp
  exact ⟨h1, h2, h3, h4⟩

/-- C1 witness: a concrete accepted placement on the 100 x 100 background,
with all hypotheses discharged at the fixture attempt. -/
theorem C1_witness :
    (0 : ℤ) ≤ 5 ∧ (5 : ℤ) + 20 ≤ (bg0.w : ℤ) ∧
    (0 : ℤ) ≤ 5 ∧ (5 : ℤ) + 20 ≤ (bg0.h : ℤ) :=
  C1_placement_in_bounds bg0 a0 (by decide) (by decide)
    (show attemptStep bg0 a0 = .placed 5 5 20 20 ⟨3/20, 3/20, 1/5, 1/5⟩ by
      with_unfolding_all decide)

/-- C7: every Annotation record produced from an accepted placement on a
positive-size background has all four normalized fields in the half-open
interval (0, 1], and decoding the normalized box back to a pixel box and
re-encoding it through `convert_to_yolo` returns the same normalized box
(exactly, in the rational model of float arithmetic). -/
theorem C7_yolo_range_and_roundtrip (bg : Img) (a : Attempt)
    (hbw : 1 ≤ bg.w) (hbh : 1 ≤ bg.h)
    {px py nw nh : ℤ} {yb : YoloBox}
    (hp : attemptStep bg a = .placed px py nw nh yb) :
    (0 < yb.xc ∧ yb.xc ≤ 1) ∧ (0 < yb.yc ∧ yb.yc ≤ 1) ∧
    (0 < yb.bw ∧ yb.bw ≤ 1) ∧ (0 < yb.bh ∧ yb.bh ≤ 1) ∧
    convert_to_yolo (yolo_decode yb ((bg.w : ℚ), (bg.h : ℚ)))
      ((bg.w : ℚ), (bg.h : ℚ)) = yb := by
  obtain ⟨hx0, hxw, hy0, hyh, hnw, hnh, hyb⟩ := attemptStep_placed_facts bg a hp
  have hW : (0 : ℚ) < (bg.w : ℚ) := by exact_mod_cast Nat.lt_of_lt_of_le Nat.zero_lt_one hbw
  have hH : (0 : ℚ) < (bg.h : ℚ) := by exact_mod_cast Nat.lt_of_lt_of_le Nat.zero_lt_one hbh
  have hx0' : (0 : ℚ) ≤ (px : ℚ) := by exact_mod_cast hx0
  have hxw' : (px : ℚ) + (nw : ℚ) ≤ (bg.w : ℚ) := by exact_mod_cast hxw
  have hy0' : (0 : ℚ) ≤ (py : ℚ) := by exact_mod_cast hy0
  have hyh' : (py : ℚ) + (nh : ℚ) ≤ (bg.h : ℚ) := by exact_mod_cast hyh
  have hnw' : (1 : ℚ) ≤ (nw : ℚ) := by exact_mod_cast hnw
  have hnh' : (1 : ℚ) ≤ (nh : ℚ) := by exact_mod_cast hnh
  subst hyb
  rw [convert_to_yolo]
  dsimp only
  refine ⟨⟨?_, ?_⟩, ⟨?_, ?_⟩, ⟨?_, ?_⟩, ⟨?_, ?_⟩,
    yolo_roundtrip _ _ _ (ne_of_gt hW) (ne_of_gt hH)⟩
  · exact div_pos (by linarith) hW
  · rw [div_le_one hW]; linarith
  · exact div_pos (by linarith) hH
  · rw [div_le_one hH]; linarith
  · exact div_pos (by linarith) hW
  · rw [div_le_one hW]; linarith
  · exact div_pos (by linarith) hH
  · rw [div_le_one hH]; linarith

/-- C7 witness: the Annotation record of the fixture placement, with all
hypotheses discharged concretely. -/
theorem C7_witness :
    (0 < (YoloBox.mk (3/20) (3/20) (1/5) (1/5)).xc ∧
      (YoloBox.mk (3/20) (3/20) (1/5) (1/5)).xc ≤ 1) ∧
    (0 < (YoloBox.mk (3/20) (3/20) (1/5) (1/5)).yc ∧
      (YoloBox.mk (3/20) (3/20) (1/5) (1/5)).yc ≤ 1) ∧
    (0 < (YoloBox.mk (3/20) (3/20) (1/5) (1/5)).bw ∧
      (YoloBox.mk (3/20) (3/20) (1/5) (1/5)).bw ≤ 1) ∧
    (0 < (YoloBox.mk (3/20) (3/20) (1/5) (1/5)).bh ∧
      (YoloBox.mk (3/20) (3/20) (1/5) (1/5)).bh ≤ 1) ∧
    convert_to_yolo
      (yolo_decode ⟨3/20, 3/20, 1/5, 1/5⟩ ((bg0.w : ℚ), (bg0.h : ℚ)))
      ((bg0.w : ℚ), (bg0.h : ℚ)) = ⟨3/20, 3/20, 1/5, 1/5⟩ :=
  C7_yolo_range_and_roundtrip bg0 a0 (by decide) (by decide)
    (show attemptStep bg0 a0 = .placed 5 5 20 20 ⟨3/20, 3/20, 1/5, 1/5⟩ by
      with_unfolding_all decide)

/-- C8 counterexample: the claim asserts that for every shield raster and
every letter raster the compositor returns a shield-sized composite with
no exception.  For a 1 x 100 shield (a valid loadable raster) the computed
letter size is `int(1 * 0.7) = 0`, so `letter_img.resize((0, 0), LANCZOS)`
raises Pillow's `ValueError: height and width must be > 0` and no
composite is returned. -/
theorem C8_counterexample :
    newLetterSize ⟨1, 100⟩ = 0 ∧
    create_composite_logo ⟨1, 100⟩ ⟨30, 10⟩ = none := by
  constructor
  · with_unfolding_all decide
  · with_unfolding_all decide

/-- C8 (amended): for every shield raster with both dimensions at least 2
and every letter raster — including a letter larger than its paired
shield — the composite returned by `create_composite_logo` has exactly
the shield raster's width and height, with no exception (the letter is
always scaled down to fit, never rejected); for a shield of minimum
dimension at most 1 the letter resize requests a size below one pixel,
raises, and no composite is produced (the per-scene catch-all then
abandons the scene). -/
theorem C8_composite_has_shield_dims (shield_img letter_img : Img) :
    (2 ≤ min shield_img.w shield_img.h →
      create_composite_logo shield_img letter_img =
        some ⟨shield_img.w, shield_img.h⟩) ∧
    (min shield_img.w shield_img.h ≤ 1 →
      create_composite_logo shield_img letter_img = none) := by
  constructor
  · intro h2
    rw [create_composite_logo,
      letterResized_eq_some shield_img letter_img (newLetterSize_pos h2)]
    rfl
  · intro h1
    rw [create_composite_logo,
      letterResized_eq_none shield_img letter_img (newLetterSize_lt_one h1)]
    rfl

/-- C8 witness: a letter strictly larger than its shield still yields a
shield-sized composite, and a minimum-dimension-1 shield raises. -/
theorem C8_witness :
    create_composite_logo ⟨100, 100⟩ ⟨200, 300⟩ = some ⟨100, 100⟩ ∧
    create_composite_logo ⟨1, 100⟩ ⟨30, 10⟩ = none :=
  ⟨(C8_composite_has_shield_dims ⟨100, 100⟩ ⟨200, 300⟩).1 (by decide),
   (C8_composite_has_shield_dims ⟨1, 100⟩ ⟨30, 10⟩).2 (by decide)⟩

/-- C2 counterexample: the claim says the letter is resized preserving its
aspect ratio.  At a 100 x 100 shield and a 100 x 50 letter the source
resizes the letter to a 70 x 70 square
(`letter_img.resize((new_letter_size, new_letter_size))`), so the 2:1
aspect ratio is not preserved (aspect preservation would force 70 x 35,
i.e. `resized.w * 50 = resized.h * 100`). -/
theorem C2_counterexample :
    letterResized ⟨100, 100⟩ ⟨100, 50⟩ = some ⟨70, 70⟩ ∧
    ¬ (((letterResized ⟨100, 100⟩ ⟨100, 50⟩).getD ⟨0, 0⟩).w * 50 =
       ((letterResized ⟨100, 100⟩ ⟨100, 50⟩).getD ⟨0, 0⟩).h * 100) := by
  constructor
  · with_unfolding_all decide
  · with_unfolding_all decide

/-- C2 (amended): whenever the computed square side
`int(0.7 * min(shield_width, shield_height))` is at least 1 (i.e. for
every shield with both dimensions at least 2), the Logo Compositor resizes
the letter to a square of exactly that side — both output dimensions
equal, regardless of the letter's own aspect ratio, so the aspect ratio is
not preserved in general — and the square fits inside the shield and is
centered there at nonnegative offsets; when the computed side is below 1
the resize raises instead (no letter raster is produced). -/
theorem C2_amended_letter_square (shield_img letter_img : Img) :
    (1 ≤ newLetterSize shield_img →
      letterResized shield_img letter_img =
        some ⟨(newLetterSize shield_img).toNat, (newLetterSize shield_img).toNat⟩ ∧
      (newLetterSize shield_img).toNat ≤ min shield_img.w shield_img.h ∧
      0 ≤ (letterPasteOffset shield_img
            ⟨(newLetterSize shield_img).toNat, (newLetterSize shield_img).toNat⟩).1 ∧
      0 ≤ (letterPasteOffset shield_img
            ⟨(newLetterSize shield_img).toNat, (newLetterSize shield_img).toNat⟩).2) ∧
    (newLetterSize shield_img < 1 →
      letterResized shield_img letter_img = none) := by
  have hle := newLetterSize_le_min shield_img
  have hnn := newLetterSize_nonneg shield_img
  constructor
  · intro h1
    refine ⟨letterResized_eq_some shield_img letter_img h1, ?_, ?_, ?_⟩
    · omega
    · apply Int.fdiv_nonneg _ (by norm_num)
      dsimp only
      have hw : (min shield_img.w shield_img.h : ℤ) ≤ (shield_img.w : ℤ) := by
        exact_mod_cast min_le_left shield_img.w shield_img.h
      omega
    · apply Int.fdiv_nonneg _ (by norm_num)
      dsimp only
      have hh : (min shield_img.w shield_img.h : ℤ) ≤ (shield_img.h : ℤ) := by
        exact_mod_cast min_le_right shield_img.w shield_img.h
      omega
  · exact letterResized_eq_none shield_img letter_img

/-- C2 witness: the square resize, bounds and centering offsets at the
100 x 100 shield with the 100 x 50 letter, and the raise at a
minimum-dimension-1 shield. -/
theorem C2_witness :
    (letterResized ⟨100, 100⟩ ⟨100, 50⟩ =
        some ⟨(newLetterSize ⟨100, 100⟩).toNat, (newLetterSize ⟨100, 100⟩).toNat⟩ ∧
      (newLetterSize ⟨100, 100⟩).toNat ≤ min 100 100 ∧
      0 ≤ (letterPasteOffset ⟨100, 100⟩
            ⟨(newLetterSize ⟨100, 100⟩).toNat, (newLetterSize ⟨100, 100⟩).toNat⟩).1 ∧
      0 ≤ (letterPasteOffset ⟨100, 100⟩
            ⟨(newLetterSize ⟨100, 100⟩).toNat, (newLetterSize ⟨100, 100⟩).toNat⟩).2) ∧
    letterResized ⟨1, 100⟩ ⟨30, 10⟩ = none :=
  ⟨(C2_amended_letter_square ⟨100, 100⟩ ⟨100, 50⟩).1 (by with_unfolding_all decide),
   (C2_amended_letter_square ⟨1, 100⟩ ⟨30, 10⟩).2 (by with_unfolding_all decide)⟩

/-- C3 (code bug): the claim — and the spec — say each label line is
newline-terminated.  The source f-string ends in an escaped backslash
followed by the letter n, so the written file contains the two characters
backslash, n instead of a newline: for a scene with one annotation the
label file contents contain no newline character at all, while the
spec-described contents end in one. -/
theorem C3_label_lines_not_newline_terminated :
    labelContent ratRender [⟨3/20, 3/20, 1/5, 1/5⟩] = "0 3/20 3/20 1/5 1/5\\n" ∧
    ((labelContent ratRender [⟨3/20, 3/20, 1/5, 1/5⟩]).toList.contains '\n') = false ∧
    specLabelContent ratRender [⟨3/20, 3/20, 1/5, 1/5⟩] = "0 3/20 3/20 1/5 1/5\n" := by
  refine ⟨?_, ?_, ?_⟩ <;> with_unfolding_all decide

/-- C4 (code bug): the image is saved before the label file is written and
no cleanup happens on failure.  Running one scene whose single placement
succeeds but whose label-file write raises leaves the image file
`images/train/synthetic_000000.jpg` on disk with no label file, and the
counter is not incremented — a partial scene, which the claim says must
never remain. -/
theorem C4_partial_scene_on_label_write_failure :
    (sceneStep st0 sc4).disk.images = [("train", 0)] ∧
    (sceneStep st0 sc4).disk.labels = [] ∧
    (sceneStep st0 sc4).generated = 0 := by
  refine ⟨?_, ?_, ?_⟩ <;> with_unfolding_all decide

theorem attemptStep_forbidden_iff (bg : Img) (a : Attempt) :
    attemptStep bg a = .skippedForbidden ↔
      isForbidden a.shieldName a.letterName = true := by
  constructor
  · intro h
    by_contra hF
    rw [attemptStep, if_neg hF] at h
    dsimp only at h
    split at h
    · simp at h
    · split at h
      · simp at h
      · split at h
        · simp at h
        · split at h
          · simp at h
          · split at h
            · simp at h
            · simp at h
  · intro hF
    rw [attemptStep, if_pos hF]

/-- C5: across any run, no Logo composite is ever built from a forbidden
(shield, letter) pairing — every pair reaching the compositing call tests
negative for `isForbidden` — and a forbidden draw makes the attempt end at
`skippedForbidden`, with the scene's accumulation simply proceeding to the
remaining attempts. -/
theorem C5_forbidden_pair_never_composited :
    (∀ (bg : Img) (as : List Attempt) (p : String × String),
        p ∈ builtComposites bg as → isForbidden p.1 p.2 = false) ∧
    (∀ (bg : Img) (a : Attempt) (rest : List Attempt),
        isForbidden a.shieldName a.letterName = true →
          attemptStep bg a = .skippedForbidden ∧
          scenePlacements bg (a :: rest) = scenePlacements bg rest) := by
  constructor
  · intro bg as p hp
    rw [builtComposites, List.mem_filterMap] at hp
    obtain ⟨a, ha, hfa⟩ := hp
    cases hF : isForbidden a.shieldName a.letterName
    · cases hstep : attemptStep bg a with
      | skippedForbidden =>
          exact absurd ((attemptStep_forbidden_iff bg a).mp hstep) (by simp [hF])
      | skippedDegenerate =>
          rw [hstep] at hfa
          simp only [Option.some.injEq] at hfa
          subst hfa
          exact hF
      | errored =>
          rw [hstep] at hfa
          simp only [Option.some.injEq] at hfa
          subst hfa
          exact hF
      | placed px py nw nh yb =>
          rw [hstep] at hfa
          simp only [Option.some.injEq] at hfa
          subst hfa
          exact hF
    · have hstep := (attemptStep_forbidden_iff bg a).mpr hF
      rw [hstep] at hfa
      simp at hfa
  · intro bg a rest hF
    have hstep := (attemptStep_forbidden_iff bg a).mpr hF
    refine ⟨hstep, ?_⟩
    simp [scenePlacements, hstep]

/-- C5 witness: the fixture forbidden pair is skipped, the fixture run's
built composites contain only the non-forbidden pair, and that pair indeed
tests non-forbidden. -/
theorem C5_witness :
    attemptStep bg0 aF = .skippedForbidden ∧
    scenePlacements bg0 [aF, a0] = scenePlacements bg0 [a0] ∧
    isForbidden "s.png" "l.png" = false :=
  ⟨(C5_forbidden_pair_never_composited.2 bg0 aF [a0] (by decide)).1,
   (C5_forbidden_pair_never_composited.2 bg0 aF [a0] (by decide)).2,
   C5_forbidden_pair_never_composited.1 bg0 [aF, a0] ("s.png", "l.png")
     (by with_unfolding_all decide)⟩

/-- C6: a scene that accepts zero placements is discarded whole: the loop
body leaves the run state untouched (no image file, no label file, no
counter increment) and the run continues exactly as if that scene bundle
had never been drawn. -/
theorem C6_empty_scene_discarded (st : RunState) (sc : Scene)
    (target : ℕ) (rest : List Scene)
    (h : scenePlacements sc.bg sc.attempts = some []) :
    sceneStep st sc = st ∧
    (st.generated < target →
      runLoop target st (sc :: rest) = runLoop target st rest) := by
  have h1 : sceneStep st sc = st := by
    rw [sceneStep, h]
    simp
  refine ⟨h1, fun hlt => ?_⟩
  rw [runLoop, if_pos hlt, h1]

/-- C6 witness: the fixture scene whose only attempt draws the forbidden
pair accepts zero placements; the loop state is unchanged and the run
continues. -/
theorem C6_witness :
    sceneStep st0 sc0 = st0 ∧ runLoop 5 st0 [sc0] = runLoop 5 st0 [] :=
  ⟨(C6_empty_scene_discarded st0 sc0 5 [] (by with_unfolding_all decide)).1,
   (C6_empty_scene_discarded st0 sc0 5 [] (by with_unfolding_all decide)).2
     (by decide)⟩

/-- C9 counterexample: the claim says each corner is jittered inward or
outward by up to 15% of the dimension.  At a 100 x 100 composite the
outward-jittered corner set with top-left at (-15, 0) is within the
described range (15 = 15% of 100), yet no random draw of the source can
produce it: the code only ever jitters corners inward. -/
theorem C9_counterexample :
    specJitterReachable 100 100 [(-15, 0), (100, 0), (100, 100), (0, 100)] ∧
    ¬ ∃ d : JitterDraw, dstCorners 100 100 d =
        some [(-15, 0), (100, 0), (100, 100), (0, 100)] := by
  have h15 : jitterAmt 100 = 15 := by with_unfolding_all decide
  constructor
  · exact ⟨-15, 0, 0, 0, 0, 0, 0, 0, by rw [h15]; with_unfolding_all decide⟩
  · rintro ⟨d, hd⟩
    rw [dstCorners_eval 100 100 d (by omega) (by omega)] at hd
    simp only [Option.some.injEq, List.cons.injEq, Prod.mk.injEq] at hd
    have h1 : (d.u1 : ℤ) % (jitterAmt 100 + 1) = -15 := hd.1.1
    have h0 : 0 ≤ (d.u1 : ℤ) % (jitterAmt 100 + 1) :=
      Int.emod_nonneg _ (by omega)
    omega

/-- C9 (amended): the four destination corners are obtained by jittering
each source corner INWARD only, by integer pixel offsets: the top-left
corner's offsets and the bottom-left x / top-right y offsets are drawn
uniformly from [0, int(0.15 * dim)], the offsets subtracted from the far
edges from [1, int(0.15 * dim)]; the reachable corner quadruples are
exactly those of this inward form (stated for composites large enough
that the jitter bounds are at least 1, i.e. both dimensions at least 7). -/
theorem C9_amended_inward_jitter (w h : ℕ)
    (hjw : 1 ≤ jitterAmt w) (hjh : 1 ≤ jitterAmt h)
    (pts : List (ℤ × ℤ)) :
    (∃ d : JitterDraw, dstCorners w h d = some pts) ↔ inwardJitterForm w h pts := by
  have key : ∀ x m : ℤ, 0 ≤ x → x < m → ((x.toNat : ℤ)) % m = x := by
    intro x m h1 h2
    rw [Int.toNat_of_nonneg h1, Int.emod_eq_of_lt h1 h2]
  constructor
  · rintro ⟨d, hd⟩
    rw [dstCorners_eval w h d hjw hjh] at hd
    injection hd with hd
    refine ⟨(d.u1 : ℤ) % (jitterAmt w + 1), (d.u2 : ℤ) % (jitterAmt h + 1),
            1 + (d.u3 : ℤ) % jitterAmt w, (d.u4 : ℤ) % (jitterAmt h + 1),
            1 + (d.u5 : ℤ) % jitterAmt w, 1 + (d.u6 : ℤ) % jitterAmt h,
            (d.u7 : ℤ) % (jitterAmt w + 1), 1 + (d.u8 : ℤ) % jitterAmt h,
            ?_, ?_, ?_, ?_, ?_, ?_, ?_, ?_, hd.symm⟩
    all_goals
      constructor
    case _ => exact Int.emod_nonneg _ (by omega)
    case _ => have := Int.emod_lt_of_pos (d.u1 : ℤ) (show 0 < jitterAmt w + 1 by omega); omega
    case _ => exact Int.emod_nonneg _ (by omega)
    case _ => have := Int.emod_lt_of_pos (d.u2 : ℤ) (show 0 < jitterAmt h + 1 by omega); omega
    case _ => have := Int.emod_nonneg (d.u3 : ℤ) (show jitterAmt w ≠ 0 by omega); omega
    case _ => have := Int.emod_lt_of_pos (d.u3 : ℤ) (show 0 < jitterAmt w by omega); omega
    case _ => exact Int.emod_nonneg _ (by omega)
    case _ => have := Int.emod_lt_of_pos (d.u4 : ℤ) (show 0 < jitterAmt h + 1 by omega); omega
    case _ => have := Int.emod_nonneg (d.u5 : ℤ) (show jitterAmt w ≠ 0 by omega); omega
    case _ => have := Int.emod_lt_of_pos (d.u5 : ℤ) (show 0 < jitterAmt w by omega); omega
    case _ => have := Int.emod_nonneg (d.u6 : ℤ) (show jitterAmt h ≠ 0 by omega); omega
    case _ => have := Int.emod_lt_of_pos (d.u6 : ℤ) (show 0 < jitterAmt h by omega); omega
    case _ => exact Int.emod_nonneg _ (by omega)
    case _ => have := Int.emod_lt_of_pos (d.u7 : ℤ) (show 0 < jitterAmt w + 1 by omega); omega
    case _ => have := Int.emod_nonneg (d.u8 : ℤ) (show jitterAmt h ≠ 0 by omega); omega
    case _ => have := Int.emod_lt_of_pos (d.u8 : ℤ) (show 0 < jitterAmt h by omega); omega
  · rintro ⟨a1, a2, b1, b2, c1, c2, e1, e2,
      ⟨ha10, ha11⟩, ⟨ha20, ha21⟩, ⟨hb10, hb11⟩, ⟨hb20, hb21⟩,
      ⟨hc10, hc11⟩, ⟨hc20, hc21⟩, ⟨he10, he11⟩, ⟨he20, he21⟩, hpts⟩
    refine ⟨⟨a1.toNat, a2.toNat, (b1 - 1).toNat, b2.toNat,
             (c1 - 1).toNat, (c2 - 1).toNat, e1.toNat, (e2 - 1).toNat⟩, ?_⟩
    rw [dstCorners_eval _ _ _ hjw hjh, hpts]
    simp only [Option.some.injEq, List.cons.injEq, Prod.mk.injEq]
    rw [key a1 _ ha10 (by omega), key a2 _ ha20 (by omega),
        key (b1 - 1) _ (by omega) (by omega), key b2 _ hb20 (by omega),
        key (c1 - 1) _ (by omega) (by omega), key (c2 - 1) _ (by omega) (by omega),
        key e1 _ he10 (by omega), key (e2 - 1) _ (by omega) (by omega)]
    refine ⟨⟨rfl, rfl⟩, ⟨by omega, rfl⟩, ⟨by omega, by omega⟩, ⟨rfl, by omega⟩, trivial⟩

/-- C9 witness for the amended theorem: a concrete inward-jittered corner
quadruple at a 100 x 100 composite, shown reachable by the code. -/
theorem C9_witness :
    ∃ d : JitterDraw, dstCorners 100 100 d = some [(3, 4), (98, 5), (97, 99), (2, 96)] :=
  (C9_amended_inward_jitter 100 100
      (by have : jitterAmt 100 = 15 := by with_unfolding_all decide
          omega)
      (by have : jitterAmt 100 = 15 := by with_unfolding_all decide
          omega) _).mpr
    ⟨3, 4, 2, 5, 3, 1, 2, 4, by
      have h15 : jitterAmt 100 = 15 := by with_unfolding_all decide
      rw [h15]
      refine ⟨by omega, by omega, by omega, by omega, by omega, by omega, by omega,
        by omega, by decide⟩⟩

/-- C10: the corner jitter draws of `apply_augmentations` raise exactly on
small composites: if either dimension is at most 6 pixels, the jitter
bound is 0 and `random.randint(1, 0)` raises (the warp draw fails), and
any scene whose processing raises is abandoned by the per-scene catch-all
with the run state unchanged; if both dimensions are at least 7 every
corner-jitter draw is well-defined. -/
theorem C10_jitter_raises_iff_small :
    (∀ (w h : ℕ) (d : JitterDraw), (w ≤ 6 ∨ h ≤ 6) → dstCorners w h d = none) ∧
    (∀ (w h : ℕ) (d : JitterDraw), 7 ≤ w → 7 ≤ h →
      (dstCorners w h d).isSome = true) ∧
    (∀ (bg : Img) (a : Attempt) (logo0 : Img),
      isForbidden a.shieldName a.letterName = false →
      create_composite_logo a.shieldImg a.letterImg = some logo0 →
      (logo0.w ≤ 6 ∨ logo0.h ≤ 6) →
      attemptStep bg a = .errored) ∧
    (∀ (st : RunState) (sc : Scene),
      scenePlacements sc.bg sc.attempts = none → sceneStep st sc = st) := by
  have h1 : ∀ (w h : ℕ) (d : JitterDraw), (w ≤ 6 ∨ h ≤ 6) →
      dstCorners w h d = none := by
    intro w h d hwh
    rcases hwh with hw | hh
    · have hz : jitterAmt w = 0 := jitterAmt_eq_zero hw
      rw [dstCorners,
        randint_zero_some (jitterAmt_nonneg w) d.u1, Option.some_bind,
        randint_zero_some (jitterAmt_nonneg h) d.u2, Option.some_bind,
        randint_one_none (by omega) d.u3]
      rfl
    · have hz : jitterAmt h = 0 := jitterAmt_eq_zero hh
      rcases lt_or_le (jitterAmt w) 1 with hw1 | hw1
      · rw [dstCorners,
          randint_zero_some (jitterAmt_nonneg w) d.u1, Option.some_bind,
          randint_zero_some (jitterAmt_nonneg h) d.u2, Option.some_bind,
          randint_one_none hw1 d.u3]
        rfl
      · rw [dstCorners,
          randint_zero_some (jitterAmt_nonneg w) d.u1, Option.some_bind,
          randint_zero_some (jitterAmt_nonneg h) d.u2, Option.some_bind,
          randint_one_some hw1 d.u3, Option.some_bind,
          randint_zero_some (jitterAmt_nonneg h) d.u4, Option.some_bind,
          randint_one_some hw1 d.u5, Option.some_bind,
          randint_one_none (by omega) d.u6]
        rfl
  refine ⟨h1, ?_, ?_, ?_⟩
  · intro w h d hw hh
    rw [dstCorners_eval w h d (jitterAmt_pos hw) (jitterAmt_pos hh)]
    rfl
  · intro bg a logo0 hF hsome hdims
    rw [attemptStep, if_neg (by simp [hF]), hsome]
    dsimp only
    rw [h1 _ _ a.jitter hdims]
  · intro st sc h
    rw [sceneStep, h]

/-- C10 witness: a 6-pixel-wide composite makes the jitter draw raise, a
7 x 7 composite does not, and the fixture scene whose attempt raises
leaves the run state unchanged. -/
theorem C10_witness :
    dstCorners 6 50 d0 = none ∧ (dstCorners 7 7 d0).isSome = true ∧
    attemptStep bg0 aBad = .errored ∧
    sceneStep st0 scErr = st0 :=
  ⟨C10_jitter_raises_iff_small.1 6 50 d0 (Or.inl (by decide)),
   C10_jitter_raises_iff_small.2.1 7 7 d0 (by decide) (by decide),
   C10_jitter_raises_iff_small.2.2.1 bg0 aBad ⟨5, 5⟩ (by decide)
     (by with_unfolding_all decide) (Or.inl (by decide)),
   C10_jitter_raises_iff_small.2.2.2 st0 scErr (by with_unfolding_all decide)⟩

end SynthGen
